import Mathlib

/-!
# Watchdog driver (modules/drivers/wdt/modWDT.c)

Shallow embedding of the host functions of the watchdog module:
the cached timeout (a file-level uint32_t), the per-object host chunk
holding one facility handle, and the calls the functions make to the
external task-watchdog facility, which are recorded in a log.
-/

namespace ModWDT

/-! ## Machine integers -/

/-- Value of an integer after conversion to a signed 32-bit integer. -/
def toInt32 (x : Int) : Int := (x + 2147483648) % 4294967296 - 2147483648

/-- Value of an integer after conversion to an unsigned 32-bit integer. -/
def toUInt32 (x : Int) : Nat := (x % 4294967296).toNat

/-! ## The external facility -/

/-- Error codes of the facility; ESP_OK is zero. -/
abbrev esp_err_t := Int

/-- The success code of the facility. -/
def ESP_OK : esp_err_t := 0

/-- A facility handle is a pointer; NULL is zero. -/
abbrev esp_task_wdt_user_handle_t := Nat

/-- The null handle. -/
def NULL : esp_task_wdt_user_handle_t := 0

/-- Configuration record handed to the facility; the two numeric fields are
unsigned 32-bit in the facility's header. -/
structure esp_task_wdt_config_t where
  timeout_ms : Nat
  idle_core_mask : Nat
  trigger_panic : Bool
  deriving DecidableEq

/-- One call made to the facility. -/
inductive Call where
  | reconfigure (conf : esp_task_wdt_config_t)
  | add_user (name : List Char)
  | delete_user (handle : esp_task_wdt_user_handle_t)
  | reset_user (handle : esp_task_wdt_user_handle_t)
  deriving DecidableEq

/-- Behaviour of the facility as seen by this module: each answer may depend
on the calls made so far. For add_user the second component is the value the
facility leaves in the handle cell it was given. -/
structure Facility where
  esp_task_wdt_reconfigure : List Call → esp_task_wdt_config_t → esp_err_t
  esp_task_wdt_add_user : List Call → List Char → esp_err_t × esp_task_wdt_user_handle_t
  esp_err_to_name : esp_err_t → List Char

/-! ## Module state -/

/-- File-level state: the cached timeout_ms and the log of facility calls,
oldest first. -/
structure Machine where
  timeout_ms : Nat
  calls : List Call
  deriving DecidableEq

/-- Host chunk of one watchdog object. -/
structure wdt_data where
  handle : esp_task_wdt_user_handle_t
  deriving DecidableEq

/-- How a host function ends: it returns, it raises through xsUnknownError
(msg is the text handed to xsUnknownError), or it writes outside a buffer
or through a NULL pointer. -/
inductive Result where
  | ok
  | thrown (msg : String)
  | fault
  deriving DecidableEq

/-! ## Timeout functions -/

/-- xs_wdt_get_timeout_ms: xsmcSetInteger stores the cached value as a signed
32-bit integer in the result slot. -/
def xs_wdt_get_timeout_ms (m : Machine) : Int := toInt32 (m.timeout_ms : Int)

/-- The conf record built in xs_wdt_set_timeout_ms. The mask expression
(1 shifted left by the core count, minus 1) is computed in int. -/
def wdt_conf (CONFIG_SOC_CPU_CORES_NUM : Nat) (to_ms : Int) : esp_task_wdt_config_t :=
  { timeout_ms := toUInt32 to_ms
    idle_core_mask := toUInt32 (toInt32 (toInt32 ((2 : Int) ^ CONFIG_SOC_CPU_CORES_NUM) - 1))
    trigger_panic := true }

/-- xs_wdt_set_timeout_ms: arg0 is the number passed by the script, which
xsmcToInteger turns into an int32_t. -/
def xs_wdt_set_timeout_ms (fac : Facility) (CONFIG_SOC_CPU_CORES_NUM : Nat)
    (m : Machine) (arg0 : Int) : Result × Machine :=
  let to_ms := toInt32 arg0
  let conf := wdt_conf CONFIG_SOC_CPU_CORES_NUM to_ms
  let err := fac.esp_task_wdt_reconfigure m.calls conf
  let m1 : Machine := { m with calls := m.calls ++ [Call.reconfigure conf] }
  if err ≠ ESP_OK then
    (Result.thrown "can't set timeout", m1)
  else
    (Result.ok, { m1 with timeout_ms := toUInt32 to_ms })

/-- xs_wdt_init: the configuration macro CONFIG_ESP_TASK_WDT_TIMEOUT_S is
either defined to a number of seconds or absent. -/
def xs_wdt_init (CONFIG_ESP_TASK_WDT_TIMEOUT_S : Option Int) (m : Machine) : Machine :=
  match CONFIG_ESP_TASK_WDT_TIMEOUT_S with
  | some s => { m with timeout_ms := toUInt32 (toInt32 (s * 1000)) }
  | none => { m with timeout_ms := 5000 }

/-! ## C strings -/

/-- The string terminator. -/
def NUL : Char := Char.ofNat 0

/-- The characters of the C string starting at a pointer: those before the
first NUL. -/
def cstr (s : List Char) : List Char := s.takeWhile (fun c => c != NUL)

/-- Number of characters before the first NUL. -/
def strlen (s : List Char) : Nat := (cstr s).length

/-- A block of n chars whose initial content is whatever the heap held
(fill). -/
def block (n : Nat) (fill : Nat → Char) : List Char := (List.range n).map fill

/-- c_malloc: heap n is the heap's answer to a request for n chars, none when
it cannot serve it (c_malloc returns NULL), else the content the block starts
with. -/
def c_malloc (heap : Nat → Option (Nat → Char)) (n : Nat) : Option (List Char) :=
  (heap n).map (block n)

/-- Copy the characters of src and a terminating NUL into dst from offset
off on; none when that would write past the end of dst. -/
def writeAt (dst : List Char) (off : Nat) (src : List Char) : Option (List Char) :=
  if off + strlen src + 1 ≤ dst.length then
    some (dst.take off ++ (cstr src ++ (NUL :: dst.drop (off + strlen src + 1))))
  else
    none

/-- Copy src, terminator included, to the start of dst. -/
def strcpy (dst src : List Char) : Option (List Char) := writeAt dst 0 src

/-- Append src at the terminator of the string held in dst; none when dst
holds no terminator or the result does not fit. -/
def strcat (dst src : List Char) : Option (List Char) :=
  if strlen dst < dst.length then writeAt dst (strlen dst) src else none

/-! ## Object functions -/

/-- State after the constructor: chunk is the host chunk attached to the
object, when one was allocated. -/
structure CtorOutcome where
  result : Result
  chunk : Option wdt_data
  machine : Machine
  deriving DecidableEq

/-- The object the script receives from the constructor: none when the
constructor raised. -/
def CtorOutcome.subscription (o : CtorOutcome) : Option wdt_data :=
  match o.result with
  | Result.ok => o.chunk
  | _ => none

/-- State after a method call on an object. -/
structure Outcome where
  result : Result
  data : wdt_data
  machine : Machine
  deriving DecidableEq

/-- The fixed text the constructor's error message starts with. -/
def add_user_msg : List Char := "can't add user: ".toList

/-- xs_wdt_constructor: args are the script's arguments as strings
(xsmcToString); heap answers the c_malloc request. The result of c_malloc is
not checked before strcpy writes through it, so a NULL result is a fault. -/
def xs_wdt_constructor (fac : Facility) (heap : Nat → Option (Nat → Char)) (m : Machine)
    (args : List (List Char)) : CtorOutcome :=
  if args.length ≠ 1 then
    { result := Result.thrown "invalid arguments", chunk := none, machine := m }
  else
    let data : wdt_data := { handle := NULL }
    let name := args.headD []
    let r := fac.esp_task_wdt_add_user m.calls name
    let err := r.1
    let data : wdt_data := { data with handle := r.2 }
    let m1 : Machine := { m with calls := m.calls ++ [Call.add_user name] }
    if err ≠ ESP_OK then
      let l := toInt32 (strlen add_user_msg)
      let esp_err := fac.esp_err_to_name err
      let l := toInt32 (l + strlen esp_err)
      match c_malloc heap (toUInt32 (toInt32 (l + 1))) with
      | none => { result := Result.fault, chunk := some data, machine := m1 }
      | some msg =>
        match strcpy msg add_user_msg with
        | none => { result := Result.fault, chunk := some data, machine := m1 }
        | some msg1 =>
          match strcat msg1 esp_err with
          | none => { result := Result.fault, chunk := some data, machine := m1 }
          | some msg2 =>
            { result := Result.thrown (String.mk (cstr msg2)), chunk := some data,
              machine := m1 }
    else
      { result := Result.ok, chunk := some data, machine := m1 }

/-- xs_wdt_destructor: the chunk is freed, so only the machine remains. -/
def xs_wdt_destructor (m : Machine) (data : wdt_data) : Machine :=
  if data.handle ≠ NULL then
    { m with calls := m.calls ++ [Call.delete_user data.handle] }
  else
    m

/-- xs_wdt_close: unregister a valid handle and set it to NULL. -/
def xs_wdt_close (m : Machine) (data : wdt_data) : Outcome :=
  if data.handle ≠ NULL then
    { result := Result.ok
      data := { data with handle := NULL }
      machine := { m with calls := m.calls ++ [Call.delete_user data.handle] } }
  else
    { result := Result.ok, data := data, machine := m }

/-- xs_wdt_write: feed the facility when the handle is valid. -/
def xs_wdt_write (m : Machine) (data : wdt_data) : Outcome :=
  if data.handle ≠ NULL then
    { result := Result.ok
      data := data
      machine := { m with calls := m.calls ++ [Call.reset_user data.handle] } }
  else
    { result := Result.ok, data := data, machine := m }

/-! ## Sequences of operations on one object -/

/-- A method call made by the script on one object. -/
inductive Op where
  | reset
  | close
  deriving DecidableEq

/-- The host function behind each method. -/
def applyOp (m : Machine) (data : wdt_data) : Op → Outcome
  | Op.reset => xs_wdt_write m data
  | Op.close => xs_wdt_close m data

/-- Run the operations in order; a raised error ends the run. -/
def runOps (m : Machine) (data : wdt_data) : List Op → Outcome
  | [] => { result := Result.ok, data := data, machine := m }
  | op :: rest =>
    let o := applyOp m data op
    if o.result = Result.ok then runOps o.machine o.data rest else o

/-- The operations followed by the destructor. -/
def lifecycle (m : Machine) (data : wdt_data) (ops : List Op) : Machine :=
  let o := runOps m data ops
  xs_wdt_destructor o.machine o.data

/-- Construct an object with one name, run the operations on it when the
constructor returned, and destroy the chunk when one was allocated. -/
def session (fac : Facility) (heap : Nat → Option (Nat → Char)) (m : Machine)
    (name : List Char) (ops : List Op) : Machine :=
  let c := xs_wdt_constructor fac heap m [name]
  match c.chunk with
  | none => c.machine
  | some data =>
    if c.result = Result.ok then lifecycle c.machine data ops
    else xs_wdt_destructor c.machine data

/-! ## Example facilities -/

/-- A facility that accepts everything and hands out handle 7. -/
def acceptAll : Facility :=
  { esp_task_wdt_reconfigure := fun _ _ => ESP_OK
    esp_task_wdt_add_user := fun _ _ => (ESP_OK, 7)
    esp_err_to_name := fun _ => "ESP_OK".toList }

/-- A facility that rejects everything with code 259 and leaves the handle
cell untouched. -/
def rejectAll : Facility :=
  { esp_task_wdt_reconfigure := fun _ _ => 259
    esp_task_wdt_add_user := fun _ _ => (259, 0)
    esp_err_to_name := fun _ => "ESP_ERR_INVALID_STATE".toList }

/-- A facility that is out of memory: add_user answers ESP_ERR_NO_MEM (0x101)
and leaves the handle cell untouched. -/
def noMem : Facility :=
  { esp_task_wdt_reconfigure := fun _ _ => ESP_OK
    esp_task_wdt_add_user := fun _ _ => (257, 0)
    esp_err_to_name := fun _ => "ESP_ERR_NO_MEM".toList }

/-- A heap that serves every request with a block full of the letter z. -/
def heapOk : Nat → Option (Nat → Char) := fun _ => some (fun _ => 'z')

/-- An exhausted heap: every request gets NULL. -/
def heapFull : Nat → Option (Nat → Char) := fun _ => none

/-- A machine after xs_wdt_init without a configured value, before any call. -/
def m0 : Machine := { timeout_ms := 5000, calls := [] }

/-! ## Timeout theorems -/

/-- C1: when the facility rejects the reconfigure call, xs_wdt_set_timeout_ms
raises an error and the cached timeout_ms is the one from before the call, so
xs_wdt_get_timeout_ms returns what it returned before. -/
theorem set_timeout_rejected_keeps_cache (fac : Facility) (cores : Nat) (m : Machine) (T : Int)
    (hrej : fac.esp_task_wdt_reconfigure m.calls (wdt_conf cores (toInt32 T)) ≠ ESP_OK) :
    (xs_wdt_set_timeout_ms fac cores m T).1 = Result.thrown "can't set timeout" ∧
    (xs_wdt_set_timeout_ms fac cores m T).2.timeout_ms = m.timeout_ms ∧
    xs_wdt_get_timeout_ms (xs_wdt_set_timeout_ms fac cores m T).2 = xs_wdt_get_timeout_ms m := by
  simp [xs_wdt_set_timeout_ms, xs_wdt_get_timeout_ms, hrej]

theorem set_timeout_rejected_keeps_cache_witness :
    rejectAll.esp_task_wdt_reconfigure m0.calls (wdt_conf 2 (toInt32 3000)) ≠ ESP_OK ∧
    (xs_wdt_set_timeout_ms rejectAll 2 m0 3000).1 = Result.thrown "can't set timeout" ∧
    (xs_wdt_set_timeout_ms rejectAll 2 m0 3000).2.timeout_ms = m0.timeout_ms ∧
    xs_wdt_get_timeout_ms (xs_wdt_set_timeout_ms rejectAll 2 m0 3000).2
      = xs_wdt_get_timeout_ms m0 :=
  ⟨by decide, set_timeout_rejected_keeps_cache rejectAll 2 m0 3000 (by decide)⟩

/-- C2 as stated fails: the facility accepts T = 2147483648, the setter
returns without error, and the getter then returns -2147483648. -/
theorem set_then_get_timeout_counterexample :
    (0 : Int) < 2147483648 ∧
    acceptAll.esp_task_wdt_reconfigure m0.calls (wdt_conf 2 (toInt32 2147483648)) = ESP_OK ∧
    (xs_wdt_set_timeout_ms acceptAll 2 m0 2147483648).1 = Result.ok ∧
    xs_wdt_get_timeout_ms (xs_wdt_set_timeout_ms acceptAll 2 m0 2147483648).2
      = -2147483648 ∧
    xs_wdt_get_timeout_ms (xs_wdt_set_timeout_ms acceptAll 2 m0 2147483648).2
      ≠ 2147483648 := by
  decide

/-- C2 (amended): for every timeout T > 0 that the facility accepts,
xs_wdt_set_timeout_ms returns without error, and xs_wdt_get_timeout_ms then
returns exactly T when T ≤ 2147483647 and a value other than T when
T > 2147483647: the int32 to uint32 to int32 conversions give T back exactly
on the positive signed 32-bit range. -/
theorem set_then_get_timeout (fac : Facility) (cores : Nat) (m : Machine) (T : Int)
    (hpos : 0 < T)
    (hacc : fac.esp_task_wdt_reconfigure m.calls (wdt_conf cores (toInt32 T)) = ESP_OK) :
    (xs_wdt_set_timeout_ms fac cores m T).1 = Result.ok ∧
    (xs_wdt_get_timeout_ms (xs_wdt_set_timeout_ms fac cores m T).2 = T ↔ T ≤ 2147483647) := by
  simp only [xs_wdt_set_timeout_ms, xs_wdt_get_timeout_ms, hacc, ne_eq, not_true_eq_false,
    if_false, true_and]
  unfold toUInt32 toInt32
  omega

theorem set_then_get_timeout_witness :
    (0 : Int) < 3000 ∧
    acceptAll.esp_task_wdt_reconfigure m0.calls (wdt_conf 2 (toInt32 3000)) = ESP_OK ∧
    (xs_wdt_set_timeout_ms acceptAll 2 m0 3000).1 = Result.ok ∧
    (xs_wdt_get_timeout_ms (xs_wdt_set_timeout_ms acceptAll 2 m0 3000).2 = 3000
      ↔ (3000 : Int) ≤ 2147483647) :=
  ⟨by decide, by decide, set_then_get_timeout acceptAll 2 m0 3000 (by decide) (by decide)⟩

/-- C3 as stated fails: with 4294968 configured seconds xs_wdt_init followed by
xs_wdt_get_timeout_ms returns 704, and with 2147484 seconds it returns a
negative number, not 1000 times the seconds. -/
theorem init_default_overflow_counterexample :
    (1 : Int) ≤ 4294968 ∧
    xs_wdt_get_timeout_ms (xs_wdt_init (some 4294968) m0) = 704 ∧
    xs_wdt_get_timeout_ms (xs_wdt_init (some 4294968) m0) ≠ 1000 * 4294968 ∧
    xs_wdt_get_timeout_ms (xs_wdt_init (some 2147484) m0) = -2147483296 ∧
    xs_wdt_get_timeout_ms (xs_wdt_init (some 2147484) m0) ≠ 1000 * 2147484 := by
  decide

/-- C3 (amended): xs_wdt_init followed by xs_wdt_get_timeout_ms returns 1000
times the configured seconds S when 1 ≤ S ≤ 2147483 (so that the product fits
a signed 32-bit integer), and 5000 when no value is configured; neither result
depends on the state before xs_wdt_init. -/
theorem init_then_get_timeout (S : Int) (m m' : Machine)
    (hlo : 1 ≤ S) (hhi : S ≤ 2147483) :
    xs_wdt_get_timeout_ms (xs_wdt_init (some S) m) = 1000 * S ∧
    xs_wdt_get_timeout_ms (xs_wdt_init none m) = 5000 ∧
    xs_wdt_get_timeout_ms (xs_wdt_init (some S) m)
      = xs_wdt_get_timeout_ms (xs_wdt_init (some S) m') ∧
    xs_wdt_get_timeout_ms (xs_wdt_init none m)
      = xs_wdt_get_timeout_ms (xs_wdt_init none m') := by
  refine ⟨?_, ?_, rfl, rfl⟩
  · simp only [xs_wdt_init, xs_wdt_get_timeout_ms]
    unfold toUInt32 toInt32
    omega
  · simp only [xs_wdt_init, xs_wdt_get_timeout_ms]
    decide

theorem init_then_get_timeout_witness :
    (1 : Int) ≤ 60 ∧ (60 : Int) ≤ 2147483 ∧
    xs_wdt_get_timeout_ms (xs_wdt_init (some 60) m0) = 1000 * 60 ∧
    xs_wdt_get_timeout_ms (xs_wdt_init none m0) = 5000 ∧
    xs_wdt_get_timeout_ms (xs_wdt_init (some 60) m0)
      = xs_wdt_get_timeout_ms (xs_wdt_init (some 60) ⟨1, [Call.reset_user 3]⟩) ∧
    xs_wdt_get_timeout_ms (xs_wdt_init none m0)
      = xs_wdt_get_timeout_ms (xs_wdt_init none ⟨1, [Call.reset_user 3]⟩) :=
  ⟨by decide, by decide,
    init_then_get_timeout 60 m0 ⟨1, [Call.reset_user 3]⟩ (by decide) (by decide)⟩

theorem mask_value (N : Nat) (hN : N < 31) :
    toUInt32 (toInt32 (toInt32 ((2 : Int) ^ N) - 1)) = 2 ^ N - 1 := by
  have h1 : (2 : Nat) ^ N < 2 ^ 31 := Nat.pow_lt_pow_right (by decide) hN
  have h2 : (1 : Nat) ≤ 2 ^ N := Nat.one_le_two_pow
  have h3 : ((2 : Int) ^ N) = (((2 : Nat) ^ N : Nat) : Int) := by push_cast; rfl
  rw [h3]
  generalize (2 : Nat) ^ N = k at h1 h2
  unfold toUInt32 toInt32
  omega

/-- C10 as stated fails for a negative request: with T = -1 the one
reconfigure call carries timeout 4294967295, not -1. -/
theorem set_timeout_negative_counterexample :
    (xs_wdt_set_timeout_ms acceptAll 2 m0 (-1)).2.calls
      = [Call.reconfigure { timeout_ms := 4294967295, idle_core_mask := 3, trigger_panic := true }] ∧
    ((4294967295 : Nat) : Int) ≠ -1 := by
  decide

/-- C10 (amended): for every requested timeout T with 0 ≤ T < 2^32 and every
core count N < 31 (so for 1 ≤ N < 31), xs_wdt_set_timeout_ms makes exactly
one facility call, a reconfigure whose timeout is T, whose trigger_panic is
true and whose idle-core mask is (1 << N) - 1, in which bit i is set exactly
when i < N. -/
theorem set_timeout_reconfigure_call (fac : Facility) (N : Nat) (m : Machine) (T : Int)
    (hN : N < 31) (hT0 : 0 ≤ T) (hT : T < 4294967296) :
    (xs_wdt_set_timeout_ms fac N m T).2.calls
      = m.calls ++ [Call.reconfigure (wdt_conf N (toInt32 T))] ∧
    ((wdt_conf N (toInt32 T)).timeout_ms : Int) = T ∧
    (wdt_conf N (toInt32 T)).trigger_panic = true ∧
    (wdt_conf N (toInt32 T)).idle_core_mask = (1 <<< N) - 1 ∧
    ∀ i : Nat, (wdt_conf N (toInt32 T)).idle_core_mask.testBit i = true ↔ i < N := by
  have hmask := mask_value N hN
  refine ⟨?_, ?_, rfl, ?_, ?_⟩
  · unfold xs_wdt_set_timeout_ms
    by_cases h : fac.esp_task_wdt_reconfigure m.calls (wdt_conf N (toInt32 T)) = ESP_OK <;>
      simp [h]
  · simp only [wdt_conf]
    unfold toUInt32 toInt32
    omega
  · simp only [wdt_conf, hmask, Nat.one_shiftLeft]
  · intro i
    simp only [wdt_conf, hmask, Nat.testBit_two_pow_sub_one, decide_eq_true_eq]

theorem set_timeout_reconfigure_call_witness :
    2 < 31 ∧ (0 : Int) ≤ 3000 ∧ (3000 : Int) < 4294967296 ∧
    ((xs_wdt_set_timeout_ms acceptAll 2 m0 3000).2.calls
      = m0.calls ++ [Call.reconfigure (wdt_conf 2 (toInt32 3000))] ∧
    ((wdt_conf 2 (toInt32 3000)).timeout_ms : Int) = 3000 ∧
    (wdt_conf 2 (toInt32 3000)).trigger_panic = true ∧
    (wdt_conf 2 (toInt32 3000)).idle_core_mask = (1 <<< 2) - 1 ∧
    ∀ i : Nat, (wdt_conf 2 (toInt32 3000)).idle_core_mask.testBit i = true ↔ i < 2) :=
  ⟨by decide, by decide, by decide,
    set_timeout_reconfigure_call acceptAll 2 m0 3000 (by decide) (by decide) (by decide)⟩

/-! ## Object theorems -/

theorem ctor_calls (fac : Facility) (heap : Nat → Option (Nat → Char)) (m : Machine) (name : List Char) :
    (xs_wdt_constructor fac heap m [name]).machine.calls
      = m.calls ++ [Call.add_user name] := by
  unfold xs_wdt_constructor
  rw [if_neg (by simp)]
  dsimp only [List.headD_cons]
  split
  · split
    · rfl
    · split
      · rfl
      · split <;> rfl
  · rfl

theorem ctor_accepted (fac : Facility) (heap : Nat → Option (Nat → Char)) (m : Machine) (name : List Char)
    (hok : (fac.esp_task_wdt_add_user m.calls name).1 = ESP_OK) :
    xs_wdt_constructor fac heap m [name] =
      { result := Result.ok
        chunk := some { handle := (fac.esp_task_wdt_add_user m.calls name).2 }
        machine := { m with calls := m.calls ++ [Call.add_user name] } } := by
  unfold xs_wdt_constructor
  rw [if_neg (by simp)]
  dsimp only [List.headD_cons]
  rw [if_neg (by simp [hok])]

theorem ctor_rejected_subscription (fac : Facility) (heap : Nat → Option (Nat → Char)) (m : Machine)
    (name : List Char) (herr : (fac.esp_task_wdt_add_user m.calls name).1 ≠ ESP_OK) :
    (xs_wdt_constructor fac heap m [name]).subscription = none := by
  unfold xs_wdt_constructor
  rw [if_neg (by simp)]
  dsimp only [List.headD_cons]
  rw [if_pos herr]
  split
  · rfl
  · split
    · rfl
    · split <;> rfl

/-- C4 as stated fails: the constructor called with the empty name on a
facility that accepts it makes an add_user call, returns without error and
yields an object with a valid handle. -/
theorem constructor_empty_name_counterexample :
    (xs_wdt_constructor acceptAll heapOk m0 [[]]).result = Result.ok ∧
    (xs_wdt_constructor acceptAll heapOk m0 [[]]).subscription
      = some { handle := 7 } ∧
    (xs_wdt_constructor acceptAll heapOk m0 [[]]).machine.calls
      = [Call.add_user []] := by
  decide

/-- C4 (amended): the constructor called with a number of arguments other
than one raises "invalid arguments", yields no object and makes no facility
call; called with the empty name as its one argument it makes exactly one
add_user call, with the empty name, and yields an object exactly when the
facility answers ESP_OK. -/
theorem constructor_argument_check (fac : Facility) (heap : Nat → Option (Nat → Char)) (m : Machine)
    (args : List (List Char)) (hargc : args.length ≠ 1) :
    ((xs_wdt_constructor fac heap m args).result = Result.thrown "invalid arguments" ∧
      (xs_wdt_constructor fac heap m args).subscription = none ∧
      (xs_wdt_constructor fac heap m args).machine = m) ∧
    (xs_wdt_constructor fac heap m [[]]).machine.calls = m.calls ++ [Call.add_user []] ∧
    (xs_wdt_constructor fac heap m [[]]).subscription
      = (if (fac.esp_task_wdt_add_user m.calls []).1 = ESP_OK
          then some { handle := (fac.esp_task_wdt_add_user m.calls []).2 } else none) := by
  refine ⟨?_, ctor_calls fac heap m [], ?_⟩
  · simp [xs_wdt_constructor, hargc, CtorOutcome.subscription]
  · by_cases h : (fac.esp_task_wdt_add_user m.calls []).1 = ESP_OK
    · rw [if_pos h, ctor_accepted fac heap m [] h]
      rfl
    · rw [if_neg h]
      exact ctor_rejected_subscription fac heap m [] h

theorem constructor_argument_check_witness :
    ([] : List (List Char)).length ≠ 1 ∧
    (((xs_wdt_constructor acceptAll heapOk m0 []).result
        = Result.thrown "invalid arguments" ∧
      (xs_wdt_constructor acceptAll heapOk m0 []).subscription = none ∧
      (xs_wdt_constructor acceptAll heapOk m0 []).machine = m0) ∧
    (xs_wdt_constructor acceptAll heapOk m0 [[]]).machine.calls
      = m0.calls ++ [Call.add_user []] ∧
    (xs_wdt_constructor acceptAll heapOk m0 [[]]).subscription
      = (if (acceptAll.esp_task_wdt_add_user m0.calls []).1 = ESP_OK
          then some { handle := (acceptAll.esp_task_wdt_add_user m0.calls []).2 } else none)) :=
  ⟨by decide, constructor_argument_check acceptAll heapOk m0 [] (by decide)⟩

/-- C5: on an object with a valid handle, xs_wdt_close twice raises no error
and makes one delete_user call in total; the second close makes no facility
call and leaves the chunk, whose handle is NULL, as the first close left it. -/
theorem close_twice (m : Machine) (data : wdt_data) (hvalid : data.handle ≠ NULL) :
    (xs_wdt_close m data).result = Result.ok ∧
    (xs_wdt_close (xs_wdt_close m data).machine (xs_wdt_close m data).data).result
      = Result.ok ∧
    (xs_wdt_close (xs_wdt_close m data).machine (xs_wdt_close m data).data).machine.calls
      = m.calls ++ [Call.delete_user data.handle] ∧
    (xs_wdt_close (xs_wdt_close m data).machine (xs_wdt_close m data).data).machine
      = (xs_wdt_close m data).machine ∧
    (xs_wdt_close (xs_wdt_close m data).machine (xs_wdt_close m data).data).data
      = (xs_wdt_close m data).data ∧
    (xs_wdt_close m data).data.handle = NULL := by
  simp [xs_wdt_close, hvalid]

theorem close_twice_witness :
    (7 : Nat) ≠ NULL ∧
    ((xs_wdt_close m0 ⟨7⟩).result = Result.ok ∧
    (xs_wdt_close (xs_wdt_close m0 ⟨7⟩).machine (xs_wdt_close m0 ⟨7⟩).data).result
      = Result.ok ∧
    (xs_wdt_close (xs_wdt_close m0 ⟨7⟩).machine (xs_wdt_close m0 ⟨7⟩).data).machine.calls
      = m0.calls ++ [Call.delete_user 7] ∧
    (xs_wdt_close (xs_wdt_close m0 ⟨7⟩).machine (xs_wdt_close m0 ⟨7⟩).data).machine
      = (xs_wdt_close m0 ⟨7⟩).machine ∧
    (xs_wdt_close (xs_wdt_close m0 ⟨7⟩).machine (xs_wdt_close m0 ⟨7⟩).data).data
      = (xs_wdt_close m0 ⟨7⟩).data ∧
    (xs_wdt_close m0 ⟨7⟩).data.handle = NULL) :=
  ⟨by decide, close_twice m0 ⟨7⟩ (by decide)⟩

/-- C6: on an object with a valid handle, xs_wdt_write after xs_wdt_close
raises no error, makes no facility call and leaves the chunk unchanged;
xs_wdt_write on the valid handle makes exactly one reset_user call, with that
handle. -/
theorem write_after_close (m : Machine) (data : wdt_data) (hvalid : data.handle ≠ NULL) :
    (xs_wdt_write (xs_wdt_close m data).machine (xs_wdt_close m data).data).result
      = Result.ok ∧
    (xs_wdt_write (xs_wdt_close m data).machine (xs_wdt_close m data).data).machine
      = (xs_wdt_close m data).machine ∧
    (xs_wdt_write (xs_wdt_close m data).machine (xs_wdt_close m data).data).data
      = (xs_wdt_close m data).data ∧
    (xs_wdt_write m data).result = Result.ok ∧
    (xs_wdt_write m data).machine.calls = m.calls ++ [Call.reset_user data.handle] ∧
    (xs_wdt_write m data).data = data := by
  simp [xs_wdt_write, xs_wdt_close, hvalid]

theorem write_after_close_witness :
    (7 : Nat) ≠ NULL ∧
    ((xs_wdt_write (xs_wdt_close m0 ⟨7⟩).machine (xs_wdt_close m0 ⟨7⟩).data).result
      = Result.ok ∧
    (xs_wdt_write (xs_wdt_close m0 ⟨7⟩).machine (xs_wdt_close m0 ⟨7⟩).data).machine
      = (xs_wdt_close m0 ⟨7⟩).machine ∧
    (xs_wdt_write (xs_wdt_close m0 ⟨7⟩).machine (xs_wdt_close m0 ⟨7⟩).data).data
      = (xs_wdt_close m0 ⟨7⟩).data ∧
    (xs_wdt_write m0 ⟨7⟩).result = Result.ok ∧
    (xs_wdt_write m0 ⟨7⟩).machine.calls = m0.calls ++ [Call.reset_user 7] ∧
    (xs_wdt_write m0 ⟨7⟩).data = ⟨7⟩) :=
  ⟨by decide, write_after_close m0 ⟨7⟩ (by decide)⟩

/-- C7: xs_wdt_destructor on a chunk with a valid handle that was never closed
makes exactly one delete_user call, for that handle; on a chunk that was
closed it makes no facility call. -/
theorem destructor_unregisters_once (m : Machine) (data : wdt_data)
    (hvalid : data.handle ≠ NULL) :
    (xs_wdt_destructor m data).calls = m.calls ++ [Call.delete_user data.handle] ∧
    xs_wdt_destructor (xs_wdt_close m data).machine (xs_wdt_close m data).data
      = (xs_wdt_close m data).machine ∧
    (xs_wdt_destructor (xs_wdt_close m data).machine (xs_wdt_close m data).data).calls
      = m.calls ++ [Call.delete_user data.handle] := by
  simp [xs_wdt_destructor, xs_wdt_close, hvalid]

theorem destructor_unregisters_once_witness :
    (7 : Nat) ≠ NULL ∧
    ((xs_wdt_destructor m0 ⟨7⟩).calls = m0.calls ++ [Call.delete_user 7] ∧
    xs_wdt_destructor (xs_wdt_close m0 ⟨7⟩).machine (xs_wdt_close m0 ⟨7⟩).data
      = (xs_wdt_close m0 ⟨7⟩).machine ∧
    (xs_wdt_destructor (xs_wdt_close m0 ⟨7⟩).machine (xs_wdt_close m0 ⟨7⟩).data).calls
      = m0.calls ++ [Call.delete_user 7]) :=
  ⟨by decide, destructor_unregisters_once m0 ⟨7⟩ (by decide)⟩

/-! ## The error text of the constructor -/

theorem cstr_ne_nul (s : List Char) : ∀ c ∈ cstr s, (c != NUL) = true := by
  induction s with
  | nil => intro c hc; simp [cstr] at hc
  | cons x xs ih =>
    intro c hc
    unfold cstr at hc ih
    rw [List.takeWhile_cons] at hc
    by_cases hx : (x != NUL) = true
    · rw [if_pos hx] at hc
      rcases List.mem_cons.mp hc with h | h
      · rw [h]; exact hx
      · exact ih c h
    · rw [if_neg hx] at hc
      simp at hc

theorem cstr_append_nul (a r : List Char) (ha : ∀ c ∈ a, (c != NUL) = true) :
    cstr (a ++ NUL :: r) = a := by
  induction a with
  | nil => simp [cstr, NUL]
  | cons x xs ih =>
    have hx : (x != NUL) = true := ha x (List.mem_cons_self x xs)
    have hxs : ∀ c ∈ xs, (c != NUL) = true := fun c hc => ha c (List.mem_cons_of_mem x hc)
    unfold cstr at ih ⊢
    rw [List.cons_append, List.takeWhile_cons, if_pos hx, ih hxs]

theorem block_length (n : Nat) (fill : Nat → Char) : (block n fill).length = n := by
  simp [block]

theorem add_user_msg_cstr : cstr add_user_msg = add_user_msg := by decide

theorem add_user_msg_strlen : strlen add_user_msg = 16 := by decide

theorem msg_size (n : Nat) (hn : n + 17 < 4294967296) :
    toUInt32 (toInt32 (toInt32 (toInt32 ((16 : Nat) : Int) + (n : Int)) + 1)) = 16 + n + 1 := by
  unfold toUInt32 toInt32
  omega

/-- In a block of strlen(text) + strlen(diag) + 1 chars, strcpy of the fixed
text and strcat of diag both stay inside the block and leave the text
followed by diag as the string held in it. -/
theorem msg_buffer (fill : Nat → Char) (diag : List Char) :
    ∃ msg1 msg2,
      strcpy (block (strlen add_user_msg + strlen diag + 1) fill) add_user_msg = some msg1 ∧
      strcat msg1 diag = some msg2 ∧
      cstr msg2 = add_user_msg ++ cstr diag ∧
      msg2.length = strlen add_user_msg + strlen diag + 1 := by
  have hcp : strcpy (block (strlen add_user_msg + strlen diag + 1) fill) add_user_msg
      = some (add_user_msg ++ NUL ::
          (block (strlen add_user_msg + strlen diag + 1) fill).drop (16 + 1)) := by
    unfold strcpy writeAt
    rw [if_pos (by rw [block_length]; omega)]
    simp [add_user_msg_cstr, add_user_msg_strlen]
  have hnn : ∀ c ∈ add_user_msg, (c != NUL) = true := by
    have h := cstr_ne_nul add_user_msg
    rwa [add_user_msg_cstr] at h
  have hlen1 : (add_user_msg ++ NUL ::
      (block (strlen add_user_msg + strlen diag + 1) fill).drop (16 + 1)).length
      = 16 + strlen diag + 1 := by
    have h16 : add_user_msg.length = 16 := by decide
    simp only [List.length_append, List.length_cons, List.length_drop, block_length,
      add_user_msg_strlen, h16]
    omega
  have hs1 : strlen (add_user_msg ++ NUL ::
      (block (strlen add_user_msg + strlen diag + 1) fill).drop (16 + 1)) = 16 := by
    unfold strlen
    rw [cstr_append_nul _ _ hnn]
    decide
  have h16 : add_user_msg.length = 16 := by decide
  have htake : List.take 16 (add_user_msg ++ NUL ::
      (block (strlen add_user_msg + strlen diag + 1) fill).drop (16 + 1)) = add_user_msg := by
    rw [← h16, List.take_left]
  have hcat : strcat (add_user_msg ++ NUL ::
      (block (strlen add_user_msg + strlen diag + 1) fill).drop (16 + 1)) diag
      = some (add_user_msg ++ (cstr diag ++ NUL :: List.drop (16 + strlen diag + 1)
          (add_user_msg ++ NUL ::
            (block (strlen add_user_msg + strlen diag + 1) fill).drop (16 + 1)))) := by
    unfold strcat
    rw [if_pos (by omega)]
    unfold writeAt
    rw [if_pos (by omega), hs1, htake]
  refine ⟨_, _, hcp, hcat, ?_, ?_⟩
  · rw [← List.append_assoc]
    apply cstr_append_nul
    intro c hc
    rcases List.mem_append.mp hc with h | h
    · exact hnn c h
    · exact cstr_ne_nul diag c h
  · rw [List.length_append, List.length_append, List.length_cons, List.length_drop, hlen1, h16,
      add_user_msg_strlen]
    unfold strlen
    omega

theorem ctor_buffer_size (diag : List Char) (hfit : strlen diag + 17 < 4294967296) :
    toUInt32 (toInt32 (toInt32 (toInt32 ((strlen add_user_msg : Nat) : Int)
        + ((strlen diag : Nat) : Int)) + 1))
      = strlen add_user_msg + strlen diag + 1 := by
  rw [add_user_msg_strlen]
  exact msg_size (strlen diag) hfit

/-- When add_user answers an error code and c_malloc serves the request, the
constructor raises an error whose text is "can't add user: " followed by the
facility's name for that code, and yields no object; strcpy and strcat into
the block of strlen(text) + strlen(name) + 1 chars stay inside it and leave
exactly that text, terminated, in it. -/
theorem ctor_rejected_message (fac : Facility) (heap : Nat → Option (Nat → Char))
    (m : Machine) (name : List Char) (err : esp_err_t) (h : esp_task_wdt_user_handle_t)
    (fill : Nat → Char)
    (hadd : fac.esp_task_wdt_add_user m.calls name = (err, h))
    (herr : err ≠ ESP_OK)
    (hfit : strlen (fac.esp_err_to_name err) + 17 < 4294967296)
    (halloc : heap (strlen add_user_msg + strlen (fac.esp_err_to_name err) + 1) = some fill) :
    (xs_wdt_constructor fac heap m [name]).result
      = Result.thrown ("can't add user: " ++ String.mk (cstr (fac.esp_err_to_name err))) ∧
    (xs_wdt_constructor fac heap m [name]).subscription = none ∧
    (xs_wdt_constructor fac heap m [name]).machine.calls = m.calls ++ [Call.add_user name] ∧
    ∃ msg1 msg2,
      strcpy (block (strlen add_user_msg + strlen (fac.esp_err_to_name err) + 1) fill)
        add_user_msg = some msg1 ∧
      strcat msg1 (fac.esp_err_to_name err) = some msg2 ∧
      cstr msg2 = add_user_msg ++ cstr (fac.esp_err_to_name err) ∧
      msg2.length = strlen add_user_msg + strlen (fac.esp_err_to_name err) + 1 := by
  have herr1 : (fac.esp_task_wdt_add_user m.calls name).1 ≠ ESP_OK := by rw [hadd]; exact herr
  obtain ⟨msg1, msg2, h1, h2, h3, h4⟩ := msg_buffer fill (fac.esp_err_to_name err)
  have hm : c_malloc heap (strlen add_user_msg + strlen (fac.esp_err_to_name err) + 1)
      = some (block (strlen add_user_msg + strlen (fac.esp_err_to_name err) + 1) fill) := by
    unfold c_malloc
    rw [halloc]
    rfl
  refine ⟨?_, ctor_rejected_subscription fac heap m name herr1, ctor_calls fac heap m name,
    msg1, msg2, h1, h2, h3, h4⟩
  unfold xs_wdt_constructor
  rw [if_neg (by simp)]
  dsimp only [List.headD_cons]
  rw [if_pos herr1, hadd, ctor_buffer_size _ hfit, hm]
  dsimp only
  rw [h1]
  dsimp only
  rw [h2]
  dsimp only
  rw [h3]
  rfl

/-- When add_user answers an error code and c_malloc returns NULL, the
constructor ends in a fault: strcpy writes through the unchecked pointer and
no error is raised. -/
theorem ctor_rejected_alloc_failure (fac : Facility) (heap : Nat → Option (Nat → Char))
    (m : Machine) (name : List Char) (err : esp_err_t) (h : esp_task_wdt_user_handle_t)
    (hadd : fac.esp_task_wdt_add_user m.calls name = (err, h))
    (herr : err ≠ ESP_OK)
    (hfit : strlen (fac.esp_err_to_name err) + 17 < 4294967296)
    (halloc : heap (strlen add_user_msg + strlen (fac.esp_err_to_name err) + 1) = none) :
    (xs_wdt_constructor fac heap m [name]).result = Result.fault := by
  have herr1 : (fac.esp_task_wdt_add_user m.calls name).1 ≠ ESP_OK := by rw [hadd]; exact herr
  have hm : c_malloc heap (strlen add_user_msg + strlen (fac.esp_err_to_name err) + 1)
      = none := by
    unfold c_malloc
    rw [halloc]
    rfl
  unfold xs_wdt_constructor
  rw [if_neg (by simp)]
  dsimp only [List.headD_cons]
  rw [if_pos herr1, hadd, ctor_buffer_size _ hfit, hm]

/-- C8 fails on the code when the heap is exhausted: add_user answers
ESP_ERR_NO_MEM for the name "w", c_malloc returns NULL for the 31-char
message block, and the constructor ends in a fault instead of raising
"can't add user: ESP_ERR_NO_MEM"; with a heap that serves the request the
same call raises that error. -/
theorem constructor_alloc_failure_fault :
    noMem.esp_task_wdt_add_user m0.calls "w".toList = (257, 0) ∧
    (257 : Int) ≠ ESP_OK ∧
    strlen add_user_msg + strlen (noMem.esp_err_to_name 257) + 1 = 31 ∧
    c_malloc heapFull 31 = none ∧
    (xs_wdt_constructor noMem heapFull m0 ["w".toList]).result = Result.fault ∧
    (xs_wdt_constructor noMem heapFull m0 ["w".toList]).result
      ≠ Result.thrown "can't add user: ESP_ERR_NO_MEM" ∧
    (xs_wdt_constructor noMem heapOk m0 ["w".toList]).result
      = Result.thrown "can't add user: ESP_ERR_NO_MEM" := by
  decide

/-! ## Operation sequences -/

theorem runOps_closed (m : Machine) (data : wdt_data) (ops : List Op)
    (hclosed : data.handle = NULL) :
    runOps m data ops = { result := Result.ok, data := data, machine := m } := by
  induction ops with
  | nil => rfl
  | cons op rest ih =>
    cases op <;> simp [runOps, applyOp, xs_wdt_write, xs_wdt_close, hclosed, ih]

theorem lifecycle_calls (data : wdt_data) (hvalid : data.handle ≠ NULL) (ops : List Op) :
    ∀ m : Machine, ∃ k, (lifecycle m data ops).calls
      = m.calls ++ (List.replicate k (Call.reset_user data.handle)
          ++ [Call.delete_user data.handle]) := by
  induction ops with
  | nil =>
    intro m
    exact ⟨0, by simp [lifecycle, runOps, xs_wdt_destructor, hvalid]⟩
  | cons op rest ih =>
    intro m
    cases op with
    | reset =>
      obtain ⟨k, hk⟩ := ih { m with calls := m.calls ++ [Call.reset_user data.handle] }
      refine ⟨k + 1, ?_⟩
      have hstep : lifecycle m data (Op.reset :: rest)
          = lifecycle { m with calls := m.calls ++ [Call.reset_user data.handle] } data rest := by
        simp [lifecycle, runOps, applyOp, xs_wdt_write, hvalid]
      rw [hstep, hk]
      simp [List.replicate_succ]
    | close =>
      refine ⟨0, ?_⟩
      have hc : xs_wdt_close m data =
          { result := Result.ok
            data := { handle := NULL }
            machine := { m with calls := m.calls ++ [Call.delete_user data.handle] } } := by
        simp [xs_wdt_close, hvalid]
      have hrun : runOps m data (Op.close :: rest) =
          { result := Result.ok
            data := { handle := NULL }
            machine := { m with calls := m.calls ++ [Call.delete_user data.handle] } } := by
        simp only [runOps, applyOp, hc, if_true]
        exact runOps_closed _ _ rest rfl
      simp [lifecycle, hrun, xs_wdt_destructor]

theorem trace_count (k : Nat) (h : esp_task_wdt_user_handle_t) :
    (List.replicate k (Call.reset_user h) ++ [Call.delete_user h]).count (Call.delete_user h)
      = 1 := by
  induction k with
  | zero => simp
  | succ n ih => simp [List.replicate_succ, List.count_cons, ih]

theorem trace_nothing_after (k : Nat) (h : esp_task_wdt_user_handle_t)
    (pre post : List Call)
    (hsplit : List.replicate k (Call.reset_user h) ++ [Call.delete_user h]
      = pre ++ Call.delete_user h :: post) : post = [] := by
  induction k generalizing pre with
  | zero =>
    cases pre with
    | nil => simpa using hsplit.symm
    | cons x xs =>
      have hl := congrArg List.length hsplit
      simp at hl
  | succ n ih =>
    cases pre with
    | nil => simp [List.replicate_succ] at hsplit
    | cons x xs =>
      simp only [List.replicate_succ, List.cons_append, List.cons.injEq] at hsplit
      exact ih xs hsplit.2

theorem runOps_result (ops : List Op) :
    ∀ (m : Machine) (data : wdt_data), (runOps m data ops).result = Result.ok := by
  induction ops with
  | nil => intro m data; rfl
  | cons op rest ih =>
    intro m data
    have hstep : (applyOp m data op).result = Result.ok := by
      cases op
      · show (xs_wdt_write m data).result = Result.ok
        unfold xs_wdt_write; split <;> rfl
      · show (xs_wdt_close m data).result = Result.ok
        unfold xs_wdt_close; split <;> rfl
    simp only [runOps, hstep, if_true]
    exact ih _ _

theorem session_accepted (fac : Facility) (heap : Nat → Option (Nat → Char)) (m : Machine) (name : List Char)
    (h : esp_task_wdt_user_handle_t) (ops : List Op)
    (hadd : fac.esp_task_wdt_add_user m.calls name = (ESP_OK, h)) :
    session fac heap m name ops
      = lifecycle { m with calls := m.calls ++ [Call.add_user name] } { handle := h } ops := by
  have hok : (fac.esp_task_wdt_add_user m.calls name).1 = ESP_OK := by rw [hadd]
  unfold session
  rw [ctor_accepted fac heap m name hok, hadd]
  rfl

/-- C9: for every sequence of reset and close operations on a freshly
constructed object with a valid handle, followed by the destructor, the
facility calls for that handle contain exactly one delete_user and no
reset_user after it (nothing at all follows it, and every call is a reset_user
or the delete_user of that handle), and no operation raises an error; the
sequence reset, close, reset, destroy makes the calls reset_user, delete_user,
the destructor adding none. -/
theorem session_trace (fac : Facility) (heap : Nat → Option (Nat → Char)) (m : Machine) (name : List Char)
    (h : esp_task_wdt_user_handle_t) (ops : List Op)
    (hadd : fac.esp_task_wdt_add_user m.calls name = (ESP_OK, h)) (hvalid : h ≠ NULL) :
    (∃ t, (session fac heap m name ops).calls = m.calls ++ Call.add_user name :: t ∧
      t.count (Call.delete_user h) = 1 ∧
      (∀ pre post, t = pre ++ Call.delete_user h :: post → Call.reset_user h ∉ post) ∧
      (∀ pre post, t = pre ++ Call.delete_user h :: post → post = []) ∧
      (∀ c ∈ t, c = Call.reset_user h ∨ c = Call.delete_user h)) ∧
    (runOps (xs_wdt_constructor fac heap m [name]).machine { handle := h } ops).result
      = Result.ok ∧
    (session fac heap m name [Op.reset, Op.close, Op.reset]).calls
      = m.calls ++ [Call.add_user name, Call.reset_user h, Call.delete_user h] ∧
    xs_wdt_destructor
        (runOps (xs_wdt_constructor fac heap m [name]).machine { handle := h }
          [Op.reset, Op.close, Op.reset]).machine
        (runOps (xs_wdt_constructor fac heap m [name]).machine { handle := h }
          [Op.reset, Op.close, Op.reset]).data
      = (runOps (xs_wdt_constructor fac heap m [name]).machine { handle := h }
          [Op.reset, Op.close, Op.reset]).machine := by
  have hv : ({ handle := h } : wdt_data).handle ≠ NULL := hvalid
  refine ⟨?_, runOps_result ops _ _, ?_, ?_⟩
  · obtain ⟨k, hk⟩ := lifecycle_calls { handle := h } hv ops
      { m with calls := m.calls ++ [Call.add_user name] }
    refine ⟨List.replicate k (Call.reset_user h) ++ [Call.delete_user h], ?_, trace_count k h,
      ?_, ?_, ?_⟩
    · rw [session_accepted fac heap m name h ops hadd, hk]
      simp
    · intro pre post hsplit
      rw [trace_nothing_after k h pre post hsplit]
      exact List.not_mem_nil _
    · intro pre post hsplit
      exact trace_nothing_after k h pre post hsplit
    · intro c hc
      rcases List.mem_append.mp hc with hc1 | hc1
      · exact Or.inl (List.eq_of_mem_replicate hc1)
      · exact Or.inr (List.mem_singleton.mp hc1)
  · rw [session_accepted fac heap m name h _ hadd]
    simp [lifecycle, runOps, applyOp, xs_wdt_write, xs_wdt_close, xs_wdt_destructor, hvalid]
  · simp [runOps, applyOp, xs_wdt_write, xs_wdt_close, xs_wdt_destructor, hvalid]

theorem session_trace_witness :
    acceptAll.esp_task_wdt_add_user m0.calls "worker".toList = (ESP_OK, 7) ∧ (7 : Nat) ≠ NULL ∧
    ((∃ t, (session acceptAll heapOk m0 "worker".toList
          [Op.reset, Op.reset, Op.close, Op.close, Op.reset]).calls
        = m0.calls ++ Call.add_user "worker".toList :: t ∧
      t.count (Call.delete_user 7) = 1 ∧
      (∀ pre post, t = pre ++ Call.delete_user 7 :: post → Call.reset_user 7 ∉ post) ∧
      (∀ pre post, t = pre ++ Call.delete_user 7 :: post → post = []) ∧
      (∀ c ∈ t, c = Call.reset_user 7 ∨ c = Call.delete_user 7)) ∧
    (runOps (xs_wdt_constructor acceptAll heapOk m0 ["worker".toList]).machine
        { handle := 7 } [Op.reset, Op.reset, Op.close, Op.close, Op.reset]).result
      = Result.ok ∧
    (session acceptAll heapOk m0 "worker".toList [Op.reset, Op.close, Op.reset]).calls
      = m0.calls ++ [Call.add_user "worker".toList, Call.reset_user 7, Call.delete_user 7] ∧
    xs_wdt_destructor
        (runOps (xs_wdt_constructor acceptAll heapOk m0 ["worker".toList]).machine
          { handle := 7 } [Op.reset, Op.close, Op.reset]).machine
        (runOps (xs_wdt_constructor acceptAll heapOk m0 ["worker".toList]).machine
          { handle := 7 } [Op.reset, Op.close, Op.reset]).data
      = (runOps (xs_wdt_constructor acceptAll heapOk m0 ["worker".toList]).machine
          { handle := 7 } [Op.reset, Op.close, Op.reset]).machine) :=
  ⟨by decide, by decide,
    session_trace acceptAll heapOk m0 "worker".toList 7
      [Op.reset, Op.reset, Op.close, Op.close, Op.reset] (by decide) (by decide)⟩

end ModWDT
